import Mathlib

set_option maxRecDepth 100000
set_option maxHeartbeats 1000000

/-!
Shallow embedding of the credential-management core of `src/main.py`
(password hashing, verification, signup and login endpoints).

Randomness (`secrets.token_hex`, `secrets.token_urlsafe`), the store-assigned
document id and the current time are modelled as explicit parameters supplied
by the environment; everything else is translated directly from the source.
-/

namespace Backend

/-! ### SHA-256 (`hashlib.sha256(...).hexdigest()`), executable over `Nat` -/

/-- Two to the 32nd power; all SHA-256 word arithmetic is taken modulo this. -/
def w32 : Nat := 4294967296

/-- Right rotation of a 32-bit word. -/
def rotr (n x : Nat) : Nat := ((x >>> n) ||| (x <<< (32 - n))) % w32

def bigS0 (x : Nat) : Nat := (rotr 2 x) ^^^ (rotr 13 x) ^^^ (rotr 22 x)

def bigS1 (x : Nat) : Nat := (rotr 6 x) ^^^ (rotr 11 x) ^^^ (rotr 25 x)

def smallS0 (x : Nat) : Nat := (rotr 7 x) ^^^ (rotr 18 x) ^^^ (x >>> 3)

def smallS1 (x : Nat) : Nat := (rotr 17 x) ^^^ (rotr 19 x) ^^^ (x >>> 10)

def chf (x y z : Nat) : Nat := (x &&& y) ^^^ ((x ^^^ 4294967295) &&& z)

def majf (x y z : Nat) : Nat := (x &&& y) ^^^ (x &&& z) ^^^ (y &&& z)

/-- The 64 SHA-256 round constants of FIPS 180-4, in decimal. -/
def shaK : List Nat :=
  [1116352408, 1899447441, 3049323471, 3921009573, 961987163,
   1508970993, 2453635748, 2870763221, 3624381080, 310598401,
   607225278, 1426881987, 1925078388, 2162078206, 2614888103,
   3248222580, 3835390401, 4022224774, 264347078, 604807628,
   770255983, 1249150122, 1555081692, 1996064986, 2554220882,
   2821834349, 2952996808, 3210313671, 3336571891, 3584528711,
   113926993, 338241895, 666307205, 773529912, 1294757372,
   1396182291, 1695183700, 1986661051, 2177026350, 2456956037,
   2730485921, 2820302411, 3259730800, 3345764771, 3516065817,
   3600352804, 4094571909, 275423344, 430227734, 506948616,
   659060556, 883997877, 958139571, 1322822218, 1537002063,
   1747873779, 1955562222, 2024104815, 2227730452, 2361852424,
   2428436474, 2756734187, 3204031479, 3329325298]

/-- The initial SHA-256 hash state of FIPS 180-4, in decimal. -/
def shaH0 : List Nat :=
  [1779033703, 3144134277, 1013904242, 2773480762,
   1359893119, 2600822924, 528734635, 1541459225]

/-- UTF-8 encoding of a single code point, as a list of byte values. -/
def utf8Bytes (c : Nat) : List Nat :=
  if c < 0x80 then [c]
  else if c < 0x800 then [0xC0 ||| (c >>> 6), 0x80 ||| (c &&& 0x3F)]
  else if c < 0x10000 then
    [0xE0 ||| (c >>> 12), 0x80 ||| ((c >>> 6) &&& 0x3F), 0x80 ||| (c &&& 0x3F)]
  else
    [0xF0 ||| (c >>> 18), 0x80 ||| ((c >>> 12) &&& 0x3F),
     0x80 ||| ((c >>> 6) &&& 0x3F), 0x80 ||| (c &&& 0x3F)]

/-- Byte sequence of a string under UTF-8 (Python's `str.encode()`). -/
def strBytes (s : String) : List Nat :=
  (s.data.map (fun c => utf8Bytes c.toNat)).flatten

/-- The 8-byte big-endian encoding of a (64-bit) message bit length. -/
def lenBytes (n : Nat) : List Nat :=
  [(n >>> 56) % 256, (n >>> 48) % 256, (n >>> 40) % 256, (n >>> 32) % 256,
   (n >>> 24) % 256, (n >>> 16) % 256, (n >>> 8) % 256, n % 256]

/-- SHA-256 message padding: append `0x80`, zeros to 56 mod 64, then the bit length. -/
def padBytes (msg : List Nat) : List Nat :=
  let L := msg.length
  msg ++ [0x80] ++ List.replicate ((119 - L % 64) % 64) 0 ++ lenBytes (8 * L)

/-- Group bytes into big-endian 32-bit words. -/
def bytesToWords : List Nat → List Nat
  | a :: b :: c :: d :: rest => (((a * 256 + b) * 256 + c) * 256 + d) :: bytesToWords rest
  | _ => []

/-- Extend the 16 words of one block to the 64-word message schedule. -/
def buildSchedule (block : List Nat) : List Nat :=
  (List.range 48).foldl
    (fun w _ =>
      let n := w.length
      w ++ [(smallS1 (w.getD (n - 2) 0) + w.getD (n - 7) 0 +
             smallS0 (w.getD (n - 15) 0) + w.getD (n - 16) 0) % w32])
    block

/-- One round of the SHA-256 compression function on the 8-word state. -/
def compressStep (k w : Nat) (st : List Nat) : List Nat :=
  match st with
  | [a, b, c, d, e, f, g, h] =>
    let t1 := (h + bigS1 e + chf e f g + k + w) % w32
    let t2 := (bigS0 a + majf a b c) % w32
    [(t1 + t2) % w32, a, b, c, (d + t1) % w32, e, f, g]
  | other => other

/-- Process one 16-word block, updating the 8-word hash state. -/
def processBlock (h : List Nat) (block : List Nat) : List Nat :=
  let ws := buildSchedule block
  let st := (shaK.zip ws).foldl (fun st kw => compressStep kw.1 kw.2 st) h
  (h.zip st).map (fun p => (p.1 + p.2) % w32)

/-- Run SHA-256 over a padded word sequence, block by block. -/
def sha256Words (ws : List Nat) : List Nat :=
  (List.range (ws.length / 16)).foldl
    (fun h i => processBlock h ((ws.drop (16 * i)).take 16)) shaH0

/-- Combine the 8 words of the final state into a single 256-bit number. -/
def wordsToNat (ws : List Nat) : Nat :=
  ws.foldl (fun acc w => acc * w32 + w % w32) 0

/-- The SHA-256 digest of a string, as a number below 2^256. -/
def sha256Nat (s : String) : Nat :=
  wordsToNat (sha256Words (bytesToWords (padBytes (strBytes s))))

/-- The lowercase hex character for a nibble value. -/
def hexDigit (n : Nat) : Char :=
  if n < 10 then Char.ofNat (48 + n) else Char.ofNat (87 + n)

/-- Fixed-width big-endian lowercase-hex rendering of a number. -/
def toHexPad (len n : Nat) : String :=
  String.mk ((List.range len).map (fun i => hexDigit ((n >>> (4 * (len - 1 - i))) &&& 15)))

/-- `hashlib.sha256(s.encode()).hexdigest()`: the 64-char lowercase hex digest. -/
def sha256hex (s : String) : String :=
  toHexPad 64 (sha256Nat s)

/-! ### Password utilities (`hash_password`, `verify_password` in `src/main.py`) -/

/-- `SALT_LEN = 16` from the source. -/
def SALT_LEN : Nat := 16

/-- Whether a character belongs to the lowercase-hex alphabet `0-9a-f`. -/
def isHexChar (c : Char) : Bool :=
  decide (48 ≤ c.toNat ∧ c.toNat ≤ 57) || decide (97 ≤ c.toNat ∧ c.toNat ≤ 102)

/-- Characterizes the possible outputs of `secrets.token_hex(SALT_LEN)`:
a string of `2 * SALT_LEN = 32` lowercase-hex characters. -/
def isTokenHex (s : String) : Bool :=
  s.length == 2 * SALT_LEN && s.data.all isHexChar

/-- The `salt or secrets.token_hex(SALT_LEN)` idiom: `None` and the empty
string (both falsy in Python) are replaced by the freshly drawn salt. -/
def orFresh (salt : Option String) (fresh : String) : String :=
  match salt with
  | none => fresh
  | some t => if t = "" then fresh else t

/-- `hash_password` from `src/main.py`: the fresh salt that
`secrets.token_hex` would draw is passed explicitly as `fresh`.
Returns `f"\x7bsalt\x7d$\x7bh\x7d"` with `h = sha256((salt + password).encode()).hexdigest()`. -/
def hash_password (password : String) (salt : Option String) (fresh : String) : String :=
  let s := orFresh salt fresh
  s ++ "$" ++ sha256hex (s ++ password)

/-- Python's `str.split(sep)` for a single-character separator: splits on
every occurrence; `"".split(sep) == [""]`. -/
def splitOnChar (sep : Char) : List Char → List (List Char)
  | [] => [[]]
  | c :: rest =>
    if c = sep then [] :: splitOnChar sep rest
    else
      match splitOnChar sep rest with
      | h :: t => (c :: h) :: t
      | [] => [[c]]

/-- `verify_password` from `src/main.py`: `salt, _hash = stored.split("$")`
succeeds exactly when the split has two parts (otherwise `ValueError` is
caught and `False` returned); then the record is recomputed and compared. -/
def verify_password (password stored : String) (fresh : String) : Bool :=
  match splitOnChar '$' stored.data with
  | [salt, _hash] => hash_password password (some (String.mk salt)) fresh == stored
  | _ => false

/-! ### Account endpoints (`signup`, `login` in `src/main.py`) -/

/-- Python `str.strip()` restricted to ASCII whitespace. -/
def isPyWhitespace (c : Char) : Bool :=
  c = ' ' || c = '\t' || c = '\n' || c = '\r' || c = '\x0b' || c = '\x0c'

/-- Python `str.strip()` (ASCII model): drop whitespace from both ends. -/
def pyStrip (s : String) : String :=
  String.mk (((s.data.dropWhile isPyWhitespace).reverse.dropWhile isPyWhitespace).reverse)

/-- Python `str.lower()` restricted to ASCII letters. -/
def pyLowerChar (c : Char) : Char :=
  if 65 ≤ c.toNat ∧ c.toNat ≤ 90 then Char.ofNat (c.toNat + 32) else c

/-- Python `str.lower()` (ASCII model). -/
def pyLower (s : String) : String :=
  String.mk (s.data.map pyLowerChar)

/-- A document of the `user` collection, as written by `signup`. Timestamps
are modelled as abstract numbers. -/
structure UserDoc where
  oid : String
  name : String
  email : String
  password_hash : String
  created_at : Nat
  updated_at : Nat
deriving DecidableEq

/-- `users.find_one(\x7b"email": q\x7d)`: first document whose `email` field
equals the query string exactly (MongoDB equality match is case-sensitive). -/
def find_one (store : List UserDoc) (q : String) : Option UserDoc :=
  store.find? (fun d => d.email == q)

/-- `HTTPException(status_code=..., detail=...)`. -/
structure ApiError where
  status_code : Nat
  detail : String
deriving DecidableEq

/-- The `SignupRequest` model. -/
structure SignupRequest where
  name : String
  email : String
  password : String
deriving DecidableEq

/-- The `LoginRequest` model. -/
structure LoginRequest where
  email : String
  password : String
deriving DecidableEq

/-- The JSON object returned by a successful `signup`. -/
structure SignupResult where
  user_id : String
  name : String
  email : String
deriving DecidableEq

/-- The JSON object returned by a successful `login`. -/
structure LoginResult where
  token : String
  id : String
  name : String
  email : String
deriving DecidableEq

/-- The `signup` endpoint. `db` is `none` when the store is unconfigured.
`fresh` models the salt drawn by `secrets.token_hex` inside `hash_password`,
`newId` the ObjectId the store assigns on insert, `now` the current time.
On success the result and the updated collection are returned. -/
def signup (db : Option (List UserDoc)) (req : SignupRequest)
    (fresh newId : String) (now : Nat) :
    Except ApiError (SignupResult × List UserDoc) :=
  match db with
  | none => .error ⟨500, "Database not configured"⟩
  | some users =>
    if (find_one users req.email).isSome then
      .error ⟨400, "Email already registered"⟩
    else
      let doc : UserDoc :=
        { oid := newId
          name := pyStrip req.name
          email := pyLower req.email
          password_hash := hash_password req.password none fresh
          created_at := now
          updated_at := now }
      .ok (⟨newId, doc.name, doc.email⟩, users ++ [doc])

/-- The `login` endpoint. `vfresh` models the salt `secrets.token_hex` would
draw inside `verify_password`'s recomputation, `token` the output of
`secrets.token_urlsafe(24)`. -/
def login (db : Option (List UserDoc)) (req : LoginRequest)
    (vfresh token : String) :
    Except ApiError LoginResult :=
  match db with
  | none => .error ⟨500, "Database not configured"⟩
  | some users =>
    match find_one users (pyLower req.email) with
    | none => .error ⟨401, "Invalid credentials"⟩
    | some user =>
      if verify_password req.password user.password_hash vfresh then
        .ok ⟨token, user.oid, user.name, user.email⟩
      else
        .error ⟨401, "Invalid credentials"⟩

/-- A fixed string `secrets.token_hex(16)` could have produced, used to
instantiate environment parameters in concrete witnesses. -/
def sampleSalt : String := "aaaaaaaaaaaaaaaaaaaaaaaaaaaaaaaa"

/-- A second possible `secrets.token_hex(16)` output, distinct from
`sampleSalt`. -/
def sampleSalt2 : String := "bbbbbbbbbbbbbbbbbbbbbbbbbbbbbbbb"

/-! ### Helper lemmas -/

theorem mk_data (s : String) : String.mk s.data = s := rfl

theorem splitOnChar_ne_nil (sep : Char) (cs : List Char) : splitOnChar sep cs ≠ [] := by
  induction cs with
  | nil => simp [splitOnChar]
  | cons c rest ih =>
    simp only [splitOnChar]
    by_cases h : c = sep
    · simp [h]
    · simp only [if_neg h]
      cases hr : splitOnChar sep rest with
      | nil => simp
      | cons a t => simp

theorem splitOnChar_no_sep (sep : Char) (cs : List Char) (h : sep ∉ cs) :
    splitOnChar sep cs = [cs] := by
  induction cs with
  | nil => rfl
  | cons c rest ih =>
    have hc : c ≠ sep := fun hcs => h (hcs ▸ List.mem_cons_self c rest)
    have hr : sep ∉ rest := fun hm => h (List.mem_cons_of_mem c hm)
    simp only [splitOnChar, if_neg hc, ih hr]

theorem splitOnChar_append (sep : Char) (a b : List Char) (h : sep ∉ a) :
    splitOnChar sep (a ++ sep :: b) = a :: splitOnChar sep b := by
  induction a with
  | nil => simp [splitOnChar]
  | cons c a ih =>
    have hc : c ≠ sep := fun hcs => h (hcs ▸ List.mem_cons_self c a)
    have ha : sep ∉ a := fun hm => h (List.mem_cons_of_mem c hm)
    simp only [List.cons_append, splitOnChar, if_neg hc, List.append_eq]
    rw [ih ha]

theorem splitOnChar_length (sep : Char) (cs : List Char) :
    (splitOnChar sep cs).length = cs.count sep + 1 := by
  induction cs with
  | nil => simp [splitOnChar]
  | cons c rest ih =>
    simp only [splitOnChar]
    by_cases h : c = sep
    · simp [h, List.count_cons, ih]
    · simp only [if_neg h]
      cases hr : splitOnChar sep rest with
      | nil => exact absurd hr (splitOnChar_ne_nil sep rest)
      | cons x t =>
        rw [hr] at ih
        simp only [List.length_cons] at ih ⊢
        have hcount : (c :: rest).count sep = rest.count sep := by
          simp [List.count_cons, h]
        omega

theorem record_data (u D : String) : (u ++ "$" ++ D).data = u.data ++ '$' :: D.data := by
  rw [String.data_append, String.data_append, List.append_assoc]
  rfl

theorem splitOnChar_record (u D : String) (hu : '$' ∉ u.data) (hD : '$' ∉ D.data) :
    splitOnChar '$' (u ++ "$" ++ D).data = [u.data, D.data] := by
  rw [record_data, splitOnChar_append '$' u.data D.data hu, splitOnChar_no_sep '$' D.data hD]

theorem hexDigit_isHex (m : Nat) (h : m < 16) : isHexChar (hexDigit m) = true := by
  interval_cases m <;> decide

theorem toHexPad_hex (len n : Nat) : ∀ c ∈ (toHexPad len n).data, isHexChar c = true := by
  intro c hc
  simp only [toHexPad, mk_data] at hc
  have hc2 : c ∈ (List.range len).map (fun i => hexDigit ((n >>> (4 * (len - 1 - i))) &&& 15)) := hc
  obtain ⟨i, _, rfl⟩ := List.mem_map.mp hc2
  exact hexDigit_isHex _ (Nat.lt_succ_of_le (Nat.and_le_right))

theorem isHexChar_ne_dollar (c : Char) (h : isHexChar c = true) : c ≠ '$' := by
  intro hc
  rw [hc] at h
  exact absurd h (by decide)

theorem sha256hex_no_dollar (s : String) : '$' ∉ (sha256hex s).data := by
  intro hm
  exact isHexChar_ne_dollar '$' (toHexPad_hex 64 (sha256Nat s) '$' hm) rfl

theorem tokenHex_ne_empty (f : String) (h : isTokenHex f = true) : f ≠ "" := by
  intro hf
  rw [hf] at h
  exact absurd h (by decide)

theorem tokenHex_no_dollar (f : String) (h : isTokenHex f = true) : '$' ∉ f.data := by
  intro hm
  simp only [isTokenHex, Bool.and_eq_true, List.all_eq_true] at h
  exact isHexChar_ne_dollar '$' (h.2 '$' hm) rfl

theorem orFresh_some_ne (s f : String) (hs : s ≠ "") : orFresh (some s) f = s := by
  simp [orFresh, hs]

theorem orFresh_ne_empty (s f : String) (hf : isTokenHex f = true) :
    orFresh (some s) f ≠ "" := by
  by_cases hs : s = ""
  · simp only [orFresh, hs, if_pos rfl]
    exact tokenHex_ne_empty f hf
  · simp [orFresh, hs]

theorem orFresh_no_dollar (s f : String) (hf : isTokenHex f = true) (hs : '$' ∉ s.data) :
    '$' ∉ (orFresh (some s) f).data := by
  by_cases h : s = ""
  · simp only [orFresh, h, if_pos rfl]
    exact tokenHex_no_dollar f hf
  · simp only [orFresh, if_neg h]
    exact hs

theorem hash_password_some (p u f : String) (hu : u ≠ "") :
    hash_password p (some u) f = u ++ "$" ++ sha256hex (u ++ p) := by
  simp [hash_password, orFresh, hu]

theorem verify_record (p u D f : String) (hu : '$' ∉ u.data) (hD : '$' ∉ D.data) :
    verify_password p (u ++ "$" ++ D) f =
      (hash_password p (some u) f == (u ++ "$" ++ D)) := by
  unfold verify_password
  rw [splitOnChar_record u D hu hD]

theorem splitOnChar_cons_self (sep : Char) (cs : List Char) :
    splitOnChar sep (sep :: cs) = [] :: splitOnChar sep cs := by
  simp [splitOnChar]

theorem tokenHex_data_ne_nil (f : String) (h : isTokenHex f = true) : f.data ≠ [] := by
  simp only [isTokenHex, Bool.and_eq_true, beq_iff_eq] at h
  intro hnil
  have hlen : f.length = f.data.length := rfl
  rw [hlen, hnil] at h
  simp [SALT_LEN] at h

theorem tokenHex_head_hex (f : String) (h : isTokenHex f = true) :
    ∀ c ∈ f.data, isHexChar c = true := by
  simp only [isTokenHex, Bool.and_eq_true, List.all_eq_true] at h
  exact h.2

/-- Sanity check of the SHA-256 embedding against the FIPS 180-4 test vector. -/
theorem sha256hex_abc :
    sha256hex "abc" = "ba7816bf8f01cfea414140de5dae2223b00361a396177a9cb410ff61f20015ad" := by
  decide

theorem verify_password_count_ne_one (p stored fresh : String)
    (h : stored.data.count '$' ≠ 1) : verify_password p stored fresh = false := by
  have hlen := splitOnChar_length '$' stored.data
  unfold verify_password
  rcases hsp : splitOnChar '$' stored.data with _ | ⟨a, _ | ⟨b, _ | ⟨c, t⟩⟩⟩
  · exact absurd hsp (splitOnChar_ne_nil '$' stored.data)
  · rfl
  · exfalso
    rw [hsp] at hlen
    simp only [List.length_cons, List.length_nil] at hlen
    omega
  · rfl

/-- C2: `verify_password` returns `false` on every malformed record: zero
delimiter occurrences, more than one occurrence, or the empty string (the
`ValueError` from tuple unpacking is caught and `False` returned; in this
total embedding no exception can arise at all). -/
theorem verify_password_malformed_false (p stored fresh : String)
    (h : stored.data.count '$' ≠ 1) : verify_password p stored fresh = false :=
  verify_password_count_ne_one p stored fresh h

theorem verify_password_malformed_false_witness :
    (("a$b$c" : String).data.count '$' ≠ 1 ∧ verify_password "x" "a$b$c" sampleSalt = false) ∧
      (("" : String).data.count '$' ≠ 1 ∧ verify_password "x" "" sampleSalt = false) :=
  ⟨⟨by decide, verify_password_malformed_false "x" "a$b$c" sampleSalt (by decide)⟩,
   ⟨by decide, verify_password_malformed_false "x" "" sampleSalt (by decide)⟩⟩

/-- C3 as stated is false: a salt containing the delimiter character breaks
the round trip, because the stored record then splits into three parts. -/
theorem verify_roundtrip_cex :
    ¬ (∀ (p s f1 f2 : String), isTokenHex f1 = true →
        verify_password p (hash_password p (some s) f1) f2 = true) := by
  intro hclaim
  have hx := hclaim "x" "a$b" sampleSalt sampleSalt (by decide)
  exact absurd hx (by decide)

/-- C3 (amended): for every plaintext and every salt not containing the
delimiter character (including the empty salt, which is replaced by the
fresh hex salt), `verify(p, derive(p, s))` returns `true`. -/
theorem verify_roundtrip (p s f1 f2 : String) (hf : isTokenHex f1 = true)
    (hs : '$' ∉ s.data) :
    verify_password p (hash_password p (some s) f1) f2 = true := by
  have hu : '$' ∉ (orFresh (some s) f1).data := orFresh_no_dollar s f1 hf hs
  have hne : orFresh (some s) f1 ≠ "" := orFresh_ne_empty s f1 hf
  have hrec : hash_password p (some s) f1 =
      orFresh (some s) f1 ++ "$" ++ sha256hex (orFresh (some s) f1 ++ p) := rfl
  rw [hrec, verify_record p _ _ f2 hu (sha256hex_no_dollar _),
    hash_password_some p _ f2 hne]
  exact beq_self_eq_true _

theorem verify_roundtrip_witness :
    (isTokenHex sampleSalt = true ∧ '$' ∉ ("ab" : String).data) ∧
      verify_password "pw" (hash_password "pw" (some "ab") sampleSalt) sampleSalt2 = true :=
  ⟨⟨by decide, by decide⟩, verify_roundtrip "pw" "ab" sampleSalt sampleSalt2 (by decide) (by decide)⟩

/-- C5 as stated is false: the `salt or secrets.token_hex(SALT_LEN)` idiom
treats an explicitly supplied empty salt as omitted, so two calls with
different random draws return different records. -/
theorem hash_password_empty_salt_nondeterministic :
    ¬ (∀ (p s f1 f2 : String), isTokenHex f1 = true → isTokenHex f2 = true →
        hash_password p (some s) f1 = hash_password p (some s) f2) := by
  intro hclaim
  have hx := hclaim "pw" "" sampleSalt sampleSalt2 (by decide) (by decide)
  exact absurd hx (by decide)

/-- C5 (amended): `hash_password` is deterministic for every explicitly
supplied non-empty salt: the random draw is not consulted at all. -/
theorem hash_password_deterministic (p s f1 f2 : String) (hs : s ≠ "") :
    hash_password p (some s) f1 = hash_password p (some s) f2 := by
  simp [hash_password, orFresh, hs]

theorem hash_password_deterministic_witness :
    ("ab" : String) ≠ "" ∧
      hash_password "pw" (some "ab") sampleSalt = hash_password "pw" (some "ab") sampleSalt2 :=
  ⟨by decide, hash_password_deterministic "pw" "ab" sampleSalt sampleSalt2 (by decide)⟩

/-- C8: the record returned by `hash_password` is the effective salt, the
single delimiter, then the lowercase-hex SHA-256 digest of salt followed by
plaintext; every digest character is drawn from the hex alphabet. -/
theorem hash_password_format (p : String) (salt : Option String) (fresh : String) :
    hash_password p salt fresh =
      orFresh salt fresh ++ "$" ++ sha256hex (orFresh salt fresh ++ p) ∧
      (sha256hex (orFresh salt fresh ++ p)).data.all isHexChar = true :=
  ⟨rfl, List.all_eq_true.mpr (toHexPad_hex 64 (sha256Nat (orFresh salt fresh ++ p)))⟩

/-- C10: a stored record whose salt component is empty never verifies: the
falsy-or idiom replaces the empty parsed salt by a fresh 32-char hex salt,
so the recomputed record cannot coincide with the stored one. -/
theorem verify_empty_salt_record_false (p rest fresh : String)
    (hf : isTokenHex fresh = true) :
    verify_password p ("$" ++ rest) fresh = false := by
  have hdata : ("$" ++ rest).data = '$' :: rest.data := by
    rw [String.data_append]
    rfl
  unfold verify_password
  rw [hdata, splitOnChar_cons_self '$' rest.data]
  rcases hsp : splitOnChar '$' rest.data with _ | ⟨a, _ | ⟨b, t⟩⟩
  · exact absurd hsp (splitOnChar_ne_nil '$' rest.data)
  · apply beq_eq_false_iff_ne.mpr
    intro heq
    have h0 : hash_password p (some (String.mk [])) fresh =
        fresh ++ "$" ++ sha256hex (fresh ++ p) := rfl
    rw [h0] at heq
    have hd := congrArg String.data heq
    rw [record_data, hdata] at hd
    rcases hfd : fresh.data with _ | ⟨c, cs⟩
    · exact tokenHex_data_ne_nil fresh hf hfd
    · rw [hfd, List.cons_append] at hd
      have hc : c = '$' := (List.cons.injEq _ _ _ _ ▸ hd).1
      have hhex : isHexChar c = true :=
        tokenHex_head_hex fresh hf c (hfd ▸ List.mem_cons_self c cs)
      exact isHexChar_ne_dollar c hhex hc
  · rfl

theorem verify_empty_salt_record_false_witness :
    isTokenHex sampleSalt = true ∧ verify_password "x" ("$" ++ "abc") sampleSalt = false :=
  ⟨by decide, verify_empty_salt_record_false "x" "abc" sampleSalt (by decide)⟩

/-! ### Digest-space bounds for the pigeonhole argument -/

theorem compressStep_length (k w : Nat) (st : List Nat) :
    (compressStep k w st).length = st.length := by
  rcases st with _ | ⟨a, _ | ⟨b, _ | ⟨c, _ | ⟨d, _ | ⟨e, _ | ⟨f, _ | ⟨g, _ | ⟨h, _ | ⟨i, t⟩⟩⟩⟩⟩⟩⟩⟩⟩ <;> rfl

theorem foldl_compressStep_length (l : List (Nat × Nat)) (st : List Nat) :
    (l.foldl (fun s kw => compressStep kw.1 kw.2 s) st).length = st.length := by
  induction l generalizing st with
  | nil => rfl
  | cons kw l ih => rw [List.foldl_cons, ih, compressStep_length]

theorem processBlock_length (h b : List Nat) :
    (processBlock h b).length = h.length := by
  unfold processBlock
  rw [List.length_map, List.length_zip, foldl_compressStep_length]
  exact Nat.min_self _

theorem foldl_processBlock_length (l : List Nat) (g : Nat → List Nat) (h : List Nat) :
    (l.foldl (fun h i => processBlock h (g i)) h).length = h.length := by
  induction l generalizing h with
  | nil => rfl
  | cons i l ih => rw [List.foldl_cons, ih, processBlock_length]

theorem sha256Words_length (ws : List Nat) : (sha256Words ws).length = 8 :=
  foldl_processBlock_length (List.range (ws.length / 16))
    (fun i => (ws.drop (16 * i)).take 16) shaH0

theorem foldl_wordsToNat_lt (ws : List Nat) :
    ∀ acc B : Nat, 0 < B → acc < B →
      ws.foldl (fun acc w => acc * w32 + w % w32) acc < B * w32 ^ ws.length := by
  induction ws with
  | nil =>
    intro acc B _ hacc
    simpa using hacc
  | cons w ws ih =>
    intro acc B hB hacc
    have hstep : acc * w32 + w % w32 < B * w32 := by
      have h1 : w % w32 < w32 := Nat.mod_lt _ (by norm_num [w32])
      have h2 : acc + 1 ≤ B := hacc
      calc acc * w32 + w % w32 < (acc + 1) * w32 := by
            rw [Nat.succ_mul]
            omega
        _ ≤ B * w32 := Nat.mul_le_mul_right _ h2
    have hfin := ih (acc * w32 + w % w32) (B * w32)
      (Nat.mul_pos hB (by norm_num [w32])) hstep
    rw [List.foldl_cons, List.length_cons]
    calc ws.foldl (fun acc w => acc * w32 + w % w32) (acc * w32 + w % w32)
        < B * w32 * w32 ^ ws.length := hfin
      _ = B * w32 ^ (ws.length + 1) := by ring

theorem sha256Nat_lt (s : String) : sha256Nat s < w32 ^ 8 := by
  have h := foldl_wordsToNat_lt (sha256Words (bytesToWords (padBytes (strBytes s))))
    0 1 one_pos one_pos
  rw [sha256Words_length, one_mul] at h
  exact h

/-- C4 as stated is false: plaintexts are infinitely many while SHA-256
digests number at most `2 ^ 256`, so by the pigeonhole principle two distinct
plaintexts collide under the same salt and the wrong password verifies. -/
theorem verify_wrong_password_cex :
    ¬ (∀ (p p2 s f1 f2 : String), isTokenHex f1 = true → p ≠ p2 →
        verify_password p (hash_password p2 (some s) f1) f2 = false) := by
  intro hclaim
  obtain ⟨p, q, hne, heq⟩ :=
    Finite.exists_ne_map_eq_of_infinite
      (fun t : String => (⟨sha256Nat ("aa" ++ t), sha256Nat_lt _⟩ : Fin (w32 ^ 8)))
  have hdig : sha256hex ("aa" ++ p) = sha256hex ("aa" ++ q) := by
    have hn : sha256Nat ("aa" ++ p) = sha256Nat ("aa" ++ q) := congrArg Fin.val heq
    unfold sha256hex
    rw [hn]
  have hfalse := hclaim p q "aa" sampleSalt sampleSalt (by decide) hne
  rw [hash_password_some q "aa" sampleSalt (by decide),
    verify_record p "aa" _ sampleSalt (by decide) (sha256hex_no_dollar _),
    hash_password_some p "aa" sampleSalt (by decide), hdig,
    beq_self_eq_true] at hfalse
  exact Bool.noConfusion hfalse

/-- C4 (amended): wrong-password rejection holds whenever no SHA-256
collision relates the two plaintexts under the effective salt: if
`H(salt || p) ≠ H(salt || p2)` then `verify(p, derive(p2, s))` is `false`. -/
theorem verify_wrong_password (p p2 s f1 f2 : String) (hf : isTokenHex f1 = true)
    (hd : sha256hex (orFresh (some s) f1 ++ p) ≠ sha256hex (orFresh (some s) f1 ++ p2)) :
    verify_password p (hash_password p2 (some s) f1) f2 = false := by
  by_cases hdol : '$' ∈ s.data
  · apply verify_password_count_ne_one
    have hs : s ≠ "" := by
      intro h0
      rw [h0] at hdol
      exact absurd hdol (by decide)
    rw [hash_password_some p2 s f1 hs, record_data, List.count_append, List.count_cons_self]
    have h1 : 0 < s.data.count '$' := List.count_pos_iff.mpr hdol
    omega
  · have hu : '$' ∉ (orFresh (some s) f1).data := orFresh_no_dollar s f1 hf hdol
    have hne : orFresh (some s) f1 ≠ "" := orFresh_ne_empty s f1 hf
    have hrec : hash_password p2 (some s) f1 =
        orFresh (some s) f1 ++ "$" ++ sha256hex (orFresh (some s) f1 ++ p2) := rfl
    rw [hrec, verify_record p _ _ f2 hu (sha256hex_no_dollar _),
      hash_password_some p _ f2 hne]
    apply beq_eq_false_iff_ne.mpr
    intro heq
    apply hd
    have hdata := congrArg String.data heq
    rw [record_data, record_data] at hdata
    have htail := List.append_cancel_left hdata
    exact String.ext (List.cons.injEq _ _ _ _ ▸ htail).2

theorem verify_wrong_password_witness :
    (isTokenHex sampleSalt = true ∧
      sha256hex (orFresh (some "ab") sampleSalt ++ "x") ≠
        sha256hex (orFresh (some "ab") sampleSalt ++ "y")) ∧
      verify_password "x" (hash_password "y" (some "ab") sampleSalt) sampleSalt2 = false :=
  ⟨⟨by decide, by decide⟩,
   verify_wrong_password "x" "y" "ab" sampleSalt sampleSalt2 (by decide) (by decide)⟩

/-! ### Endpoint claims -/

/-- C7: with the store unconfigured, both endpoints fail immediately with the
one infrastructure error, for every request: no lookup, hash or insert can
influence the outcome and no other error kind is produced. -/
theorem store_unavailable_first (req : SignupRequest) (req2 : LoginRequest)
    (fresh newId : String) (now : Nat) (vfresh token : String) :
    signup none req fresh newId now = .error ⟨500, "Database not configured"⟩ ∧
      login none req2 vfresh token = .error ⟨500, "Database not configured"⟩ :=
  ⟨rfl, rfl⟩

theorem login_some (users : List UserDoc) (req : LoginRequest) (vfresh token : String) :
    login (some users) req vfresh token =
      match find_one users (pyLower req.email) with
      | none => .error ⟨401, "Invalid credentials"⟩
      | some user =>
        if verify_password req.password user.password_hash vfresh then
          .ok ⟨token, user.oid, user.name, user.email⟩
        else .error ⟨401, "Invalid credentials"⟩ := rfl

theorem signup_some (users : List UserDoc) (req : SignupRequest)
    (fresh newId : String) (now : Nat) :
    signup (some users) req fresh newId now =
      if (find_one users req.email).isSome then
        .error ⟨400, "Email already registered"⟩
      else
        .ok (⟨newId, pyStrip req.name, pyLower req.email⟩,
          users ++ [⟨newId, pyStrip req.name, pyLower req.email,
            hash_password req.password none fresh, now, now⟩]) := rfl

/-- C6: an unknown (lowercase-normalized) email and a failed password check
produce the identical error value: status 401, detail "Invalid credentials". -/
theorem login_uniform_invalid_credentials (users : List UserDoc) (req : LoginRequest)
    (vfresh token : String)
    (h : find_one users (pyLower req.email) = none ∨
        ∃ u, find_one users (pyLower req.email) = some u ∧
          verify_password req.password u.password_hash vfresh = false) :
    login (some users) req vfresh token = .error ⟨401, "Invalid credentials"⟩ := by
  rw [login_some]
  rcases h with h | ⟨u, hu, hv⟩
  · rw [h]
  · rw [hu]
    show (if verify_password req.password u.password_hash vfresh = true then
        Except.ok (⟨token, u.oid, u.name, u.email⟩ : LoginResult)
      else Except.error (⟨401, "Invalid credentials"⟩ : ApiError)) =
      Except.error (⟨401, "Invalid credentials"⟩ : ApiError)
    simp only [hv]
    rfl

theorem login_uniform_invalid_credentials_witness :
    find_one [] (pyLower "a@b.c") = none ∧
      login (some []) ⟨"a@b.c", "pw"⟩ sampleSalt "tok" = .error ⟨401, "Invalid credentials"⟩ :=
  ⟨rfl, login_uniform_invalid_credentials [] ⟨"a@b.c", "pw"⟩ sampleSalt "tok" (Or.inl rfl)⟩

/-- C9: a successful signup returns exactly the store-assigned identifier,
the stripped name and the lowercased email; the result type carries no other
field, so neither the credential record nor the plaintext can be returned. -/
theorem signup_returns_only_public_fields (users : List UserDoc) (req : SignupRequest)
    (fresh newId : String) (now : Nat) (res : SignupResult) (store2 : List UserDoc)
    (h : signup (some users) req fresh newId now = .ok (res, store2)) :
    res = ⟨newId, pyStrip req.name, pyLower req.email⟩ := by
  rw [signup_some] at h
  by_cases hd : (find_one users req.email).isSome
  · rw [if_pos hd] at h
    exact absurd h (by simp)
  · rw [if_neg hd] at h
    simp only [Except.ok.injEq, Prod.mk.injEq] at h
    exact h.1.symm

theorem signup_returns_only_public_fields_witness :
    signup (some []) ⟨" Bob ", "B@x.com", "pw"⟩ sampleSalt "id1" 0 =
        .ok (⟨"id1", "Bob", "b@x.com"⟩,
          [⟨"id1", "Bob", "b@x.com", hash_password "pw" none sampleSalt, 0, 0⟩]) ∧
      (⟨"id1", "Bob", "b@x.com"⟩ : SignupResult) =
        ⟨"id1", pyStrip " Bob ", pyLower "B@x.com"⟩ :=
  ⟨rfl, signup_returns_only_public_fields [] ⟨" Bob ", "B@x.com", "pw"⟩ sampleSalt "id1" 0 _ _ rfl⟩

/-- C1 is violated by the code: the duplicate check queries the raw request
email (`find_one({"email": req.email})`, without `.lower()`), so a signup
request differing only in letter case from a stored lowercase account email
passes the check, and a second account with the same normalized email is
inserted instead of failing with the duplicate-email error. -/
theorem signup_case_duplicate_missed :
    find_one [⟨"id1", "Ann", "ann@x.com", "h1", 0, 0⟩] "Ann@x.com" = none ∧
      ∃ res store2,
        signup (some [⟨"id1", "Ann", "ann@x.com", "h1", 0, 0⟩])
            ⟨"Bob", "Ann@x.com", "pw2"⟩ sampleSalt "id2" 0 = .ok (res, store2) ∧
          store2.map (fun d => d.email) = ["ann@x.com", "ann@x.com"] := by
  refine ⟨rfl, _, _, rfl, rfl⟩

end Backend
